import Mathlib

/-!
Shallow embedding of the procedural terrain / vegetation core of
`webgpu-world-generator` (files `src/heightfield.ts`, `src/sculpt.ts`,
`src/grass.ts`), together with proofs of its specified properties.

Modelling conventions:
* JS `number` values are modelled as rationals (`ℚ`); every arithmetic
  operation of the source is translated literally (`Math.floor` is `Int.floor`,
  `Math.max`/`Math.min` are `max`/`min`, ...).
* The transcendental library functions `Math.sin`, `Math.cos`, `Math.sqrt` and
  the constant `Math.PI` have no exact rational counterpart; they are kept
  abstract as fields of a `MathModel` parameter that every embedded function
  receives.  Theorems either hold for every model (the source clamps its
  outputs) or state the properties of the real functions they rely on as
  hypotheses.
* The one call to the impure global RNG `Math.random()`
  (`grass.ts`, `stiffnessArray[instanceIndex] = Math.random()`) is modelled by
  an explicit stream `rng : ℕ → ℚ`, indexed by the instance slot being filled,
  which is exactly the sequence of values the successive calls return.
* Mutation is modelled by state passing: `applyBrush` returns the new
  heightfield, `setHeight` returns a new grid.  A JS `Float32Array` read out
  of bounds yields `undefined`: `Heightfield.getHeight` returns an `Option`;
  a `Float32Array` write out of bounds is silently dropped, as is `List.set`.
-/

/-- Abstract model of the transcendental functions of the JS `Math` library
used by the source.  Keeping them abstract makes every definition computable;
facts about the real `sin`/`cos`/`sqrt` are taken as hypotheses where a
theorem needs them. -/
structure MathModel where
  sin : ℚ → ℚ
  cos : ℚ → ℚ
  sqrt : ℚ → ℚ
  pi : ℚ

/-- Source `clamp(value, min, max) = Math.max(min, Math.min(max, value))`
(`grass.ts`). -/
def clampQ (value lo hi : ℚ) : ℚ := max lo (min hi value)

/-- Source `fract(value) = value - Math.floor(value)` (`grass.ts`). -/
def fractQ (value : ℚ) : ℚ := value - ⌊value⌋

/-- Source `lerp(a, b, t) = a + (b - a) * t` (`sculpt.ts`). -/
def lerpQ (a b t : ℚ) : ℚ := a + (b - a) * t

/-- The elevation grid (`heightfield.ts`): readonly dimensions and a flat
row-major buffer `data` of length `width * height`. -/
structure Heightfield where
  width : ℕ
  height : ℕ
  data : List ℚ
deriving DecidableEq, Repr

/-- Source `getHeight(x, y) { return this.data[this.index(x, y)]; }` with
`index(x, y) = y * this.width + x` (`heightfield.ts`).  No bounds check is
performed on `(x, y)`: the flat index is used directly, and only a flat index
outside the typed array yields `undefined` (modelled as `none`). -/
def Heightfield.getHeight (g : Heightfield) (x y : ℤ) : Option ℚ :=
  let i : ℤ := y * g.width + x
  if h : 0 ≤ i ∧ i.toNat < g.data.length then some (g.data.get ⟨i.toNat, h.2⟩)
  else none

/-- Source `setHeight(x, y, value) { this.data[this.index(x, y)] = value; }`
(`heightfield.ts`).  A typed-array write at an out-of-buffer flat index is
silently ignored in JS; `List.set` behaves the same way. -/
def Heightfield.setHeight (g : Heightfield) (x y : ℤ) (value : ℚ) : Heightfield :=
  let i : ℤ := y * g.width + x
  if 0 ≤ i then { g with data := g.data.set i.toNat value } else g

/-- Total read used inside the samplers: `getHeight` with the JS `undefined`
replaced by `0`.  For a well-formed grid every sampler access is in range, so
the default is never read. -/
def Heightfield.at (g : Heightfield) (x y : ℤ) : ℚ := (g.getHeight x y).getD 0

/-- Source `sampleHeight(heightfield, u, v)` (`grass.ts`): bilinear,
edge-clamped sampling of the heightfield at continuous UV coordinates. -/
def sampleHeight (g : Heightfield) (u v : ℚ) : ℚ :=
  let x : ℚ := clampQ u 0 1 * ((g.width : ℚ) - 1)
  let y : ℚ := clampQ v 0 1 * ((g.height : ℚ) - 1)
  let x0 : ℤ := ⌊x⌋
  let y0 : ℤ := ⌊y⌋
  let x1 : ℤ := min ((g.width : ℤ) - 1) (x0 + 1)
  let y1 : ℤ := min ((g.height : ℤ) - 1) (y0 + 1)
  let tx : ℚ := x - x0
  let ty : ℚ := y - y0
  let h00 := g.at x0 y0
  let h10 := g.at x1 y0
  let h01 := g.at x0 y1
  let h11 := g.at x1 y1
  let hx0 := h00 * (1 - tx) + h10 * tx
  let hx1 := h01 * (1 - tx) + h11 * tx
  hx0 * (1 - ty) + hx1 * ty

/-- Source `estimateSlope(heightfield, u, v, du, dv)` (`grass.ts`): gradient
magnitude by central differences. -/
def estimateSlope (M : MathModel) (g : Heightfield) (u v du dv : ℚ) : ℚ :=
  let hL := sampleHeight g (u - du) v
  let hR := sampleHeight g (u + du) v
  let hD := sampleHeight g u (v - dv)
  let hU := sampleHeight g u (v + dv)
  let dx := (hR - hL) * 0.5
  let dy := (hU - hD) * 0.5
  M.sqrt (dx * dx + dy * dy)

/-- Source `pseudoNoise2D(u, v)` (`grass.ts`). -/
def pseudoNoise2D (M : MathModel) (u v : ℚ) : ℚ :=
  0.5 + 0.25 * M.sin (u * 37.2 + v * 91.7) + 0.25 * M.cos (u * 21.1 - v * 47.0)

/-- Source `pseudoRandom(x, y, seed)` (`grass.ts`). -/
def pseudoRandom (M : MathModel) (x y : ℕ) (seed : ℚ) : ℚ :=
  fractQ (M.sin ((x : ℚ) * 12.9898 + (y : ℚ) * 78.233 + seed * 43758.5453) * 43758.5453)

/-- `GrassDensityParams` (`grass.ts`): `resolution` is optional. -/
structure GrassDensityParams where
  minHeight : ℚ
  maxHeight : ℚ
  maxSlope : ℚ
  resolution : Option ℚ
deriving DecidableEq, Repr

/-- `GrassDensityMap` (`grass.ts`) without the GPU texture view, which is a
renderer-side copy of `data`. -/
structure GrassDensityMap where
  width : ℕ
  height : ℕ
  data : List ℚ
deriving DecidableEq, Repr

/-- Body of the per-texel loop of `createGrassDensityMap` (`grass.ts`):
height mask (triangular window, range-zero fallback), slope mask, noise, and
the final clamp `Math.max(0, Math.min(1, density))`. -/
def densityTexel (M : MathModel) (g : Heightfield) (p : GrassDensityParams)
    (width height : ℕ) (sampleStepU sampleStepV : ℚ) (x y : ℕ) : ℚ :=
  let u : ℚ := if 1 < width then (x : ℚ) / ((width : ℚ) - 1) else 0.5
  let v : ℚ := if 1 < height then (y : ℚ) / ((height : ℚ) - 1) else 0.5
  let h := sampleHeight g u v
  let slope := estimateSlope M g u v sampleStepU sampleStepV
  let heightRange := p.maxHeight - p.minHeight
  let heightMask : ℚ :=
    if 0 < heightRange then
      let t := (h - p.minHeight) / heightRange
      let tClamped := max 0 (min 1 t)
      max 0 (1 - |tClamped - 0.5| * 2)
    else 1
  let maxSlope := max p.maxSlope 0.00001
  let slopeT := slope / maxSlope
  let slopeClamped := max 0 (min 1 slopeT)
  let slopeMask := max 0 (min 1 (1 - max 0 (slopeClamped - 0.6) / 0.4))
  let mask := heightMask * slopeMask
  let density : ℚ :=
    if mask ≤ 0 then 0
    else
      let n := pseudoNoise2D M u v * 0.7 + 0.3
      let microNoise := (pseudoNoise2D M (u * 7.13 + 13.7) (v * 9.17 + 3.1) - 0.5) * 0.2
      let minBase : ℚ := 0.35
      minBase + (1 - minBase) * ((n + microNoise) * mask)
  max 0 (min 1 density)

/-- `createGrassDensityMap(heightfield, params)` (`grass.ts`).  The dimensions
are `Math.max(1, Math.floor(params.resolution ?? heightfield.width/height))`.
The heightfield is threaded through as state and returned unchanged: the
source only ever reads it (`sampleHeight`/`estimateSlope`), it contains no
`setHeight` call, which is the "no side effects on its inputs" guarantee. -/
def createGrassDensityMap (M : MathModel) (g : Heightfield)
    (p : GrassDensityParams) : GrassDensityMap × Heightfield :=
  let width : ℕ := (max 1 ⌊p.resolution.getD (g.width : ℚ)⌋).toNat
  let height : ℕ := (max 1 ⌊p.resolution.getD (g.height : ℚ)⌋).toNat
  let sampleStepU : ℚ := if 1 < g.width then 1 / ((g.width : ℚ) - 1) else 0
  let sampleStepV : ℚ := if 1 < g.height then 1 / ((g.height : ℚ) - 1) else 0
  let data : List ℚ :=
    ((List.range height).map (fun y =>
      (List.range width).map (fun x =>
        densityTexel M g p width height sampleStepU sampleStepV x y))).flatten
  ({ width := width, height := height, data := data }, g)

/-- Brush mode union type `"raise" | "lower" | "smooth"` (`sculpt.ts`). -/
inductive BrushMode
  | raise
  | lower
  | smooth
deriving DecidableEq, Repr

/-- `SculptBrushConfig` (`sculpt.ts`). -/
structure SculptBrushConfig where
  radius : ℚ
  intensity : ℚ
  mode : BrushMode
deriving DecidableEq, Repr

/-- Source `getNeighborAverage(data, width, height, x, y)` (`sculpt.ts`):
3x3 kernel average, ignoring out-of-grid neighbours and dividing by the
number of texels actually sampled. -/
def getNeighborAverage (data : List ℚ) (width height : ℕ) (x y : ℤ) : ℚ :=
  let offs : List ℤ := [-1, 0, 1]
  let acc : ℚ × ℕ :=
    offs.foldl (fun a ky =>
      offs.foldl (fun a kx =>
        let nx := x + kx
        let ny := y + ky
        if nx < 0 ∨ ny < 0 ∨ (width : ℤ) ≤ nx ∨ (height : ℤ) ≤ ny then a
        else (a.1 + data.getD (ny * width + nx).toNat 0, a.2 + 1)) a) (0, 0)
  if 0 < acc.2 then acc.1 / (acc.2 : ℚ) else data.getD (y * width + x).toNat 0

/-- A single iteration of the texel loop of `applyBrush` (`sculpt.ts`), acting
on the mutable `heightfield.data` buffer.  `snapshot` is `sourceData`: for
`smooth` it is the pre-brush copy of the whole grid, for raise/lower the reads
go to the live buffer (`heightfield.getHeight`), which the source aliases. -/
def brushStep (M : MathModel) (centerX centerY : ℚ) (cfg : SculptBrushConfig)
    (snapshot : List ℚ) (width height : ℕ) (data : List ℚ) (c : ℤ × ℤ) : List ℚ :=
  let dx : ℚ := (c.1 : ℚ) - centerX
  let dy : ℚ := (c.2 : ℚ) - centerY
  let dist := M.sqrt (dx * dx + dy * dy)
  if cfg.radius < dist then data
  else
    let falloff := max 0 (1 - dist / cfg.radius)
    let i : ℤ := c.2 * width + c.1
    match cfg.mode with
    | .smooth =>
      let oldHeight := snapshot.getD i.toNat 0
      let neighborAverage := getNeighborAverage snapshot width height c.1 c.2
      let smoothed := lerpQ oldHeight neighborAverage falloff
      if 0 ≤ i then data.set i.toNat smoothed else data
    | m =>
      let delta := cfg.intensity * falloff * (if m = .raise then 1 else -1)
      let nextHeight := data.getD i.toNat 0 + delta
      if 0 ≤ i then data.set i.toNat nextHeight else data

/-- The integer interval `[lo, hi]` as a list, in increasing order. -/
def intRange (lo hi : ℤ) : List ℤ :=
  (List.range (hi + 1 - lo).toNat).map (fun (i : ℕ) => lo + (i : ℤ))

/-- The texels visited by `applyBrush` (`sculpt.ts`): the bounding box of the
brush circle clipped to the grid, traversed row-major (`y` outer loop). -/
def brushCells (g : Heightfield) (centerX centerY radius : ℚ) : List (ℤ × ℤ) :=
  let minX : ℤ := max 0 ⌊centerX - radius⌋
  let maxX : ℤ := min ((g.width : ℤ) - 1) ⌈centerX + radius⌉
  let minY : ℤ := max 0 ⌊centerY - radius⌋
  let maxY : ℤ := min ((g.height : ℤ) - 1) ⌈centerY + radius⌉
  (intRange minY maxY).flatMap (fun y => (intRange minX maxX).map (fun x => (x, y)))

/-- `applyBrush` with an explicit traversal order of the affected texels;
the snapshot `sourceData` is taken before any mutation, exactly as in the
source (`new Float32Array(heightfield.data)` for smooth mode). -/
def applyBrushCells (M : MathModel) (g : Heightfield) (centerX centerY : ℚ)
    (cfg : SculptBrushConfig) (cells : List (ℤ × ℤ)) : Heightfield :=
  { g with
    data := cells.foldl (brushStep M centerX centerY cfg g.data g.width g.height) g.data }

/-- `applyBrush(heightfield, centerX, centerY, config)` (`sculpt.ts`): the
row-major traversal of the clipped bounding box. -/
def applyBrush (M : MathModel) (g : Heightfield) (centerX centerY : ℚ)
    (cfg : SculptBrushConfig) : Heightfield :=
  applyBrushCells M g centerX centerY cfg (brushCells g centerX centerY cfg.radius)

/-- One placed vegetation instance (`grass.ts`): the attributes from which the
source composes the instance matrix (`matrix.compose(position, quaternion,
scale)`) plus the per-instance shading scalars written to the instanced
attributes.  `texelX`/`texelY` record the owning density texel and
`sampleU`/`sampleV` the jittered source UV used for both the world position
and the height sample. -/
structure GrassInstance where
  texelX : ℕ
  texelY : ℕ
  sampleU : ℚ
  sampleV : ℚ
  worldX : ℚ
  posY : ℚ
  worldZ : ℚ
  yaw : ℚ
  tiltX : ℚ
  tiltZ : ℚ
  scaleX : ℚ
  scaleY : ℚ
  phase : ℚ
  stiffness : ℚ
  colorFactor : ℚ
  heightFactor : ℚ
deriving DecidableEq, Repr

/-- `GrassPatch` (`grass.ts`): aggregate center, bounding radius and the
contiguous instance range `[startInstance, startInstance + instanceCount)`. -/
structure GrassPatch where
  centerX : ℚ
  centerY : ℚ
  centerZ : ℚ
  radius : ℚ
  startInstance : ℕ
  instanceCount : ℕ
deriving DecidableEq, Repr

/-- Mutable state of the placement loops of `createGrassInstancedMesh`:
the filled prefix of the instance buffer (`instanceIndex` is its length)
and the patch list built so far. -/
structure PlaceState where
  instances : List GrassInstance
  patches : List GrassPatch
deriving DecidableEq, Repr

/-- Result of `createGrassInstancedMesh` (`grass.ts`): `count` is the final
`mesh.count = instanceIndex`. -/
structure PlaceResult where
  instances : List GrassInstance
  count : ℕ
  patches : List GrassPatch
  maxInstances : ℤ
deriving DecidableEq, Repr

/-- The body of the innermost loop of `createGrassInstancedMesh` (`grass.ts`):
derives every attribute of candidate instance `i` of texel `(x, y)` from
`pseudoRandom` with distinct seed offsets.  `slot` is the value of
`instanceIndex` at this iteration; `rng slot` is the `Math.random()` call that
fills `stiffnessArray[instanceIndex]`. -/
def placeInstance (M : MathModel) (g : Heightfield) (heightScale : ℚ)
    (rng : ℕ → ℚ) (x y : ℕ) (cellUSize cellVSize baseU baseV baseRand : ℚ)
    (worldWidth worldHeight : ℚ) (slot i : ℕ) : GrassInstance :=
  let localRand := pseudoRandom M x y ((i : ℚ) * 1.37 + baseRand)
  let jitterU := (pseudoRandom M x y ((i : ℚ) * 2.11) - 0.5) * cellUSize
  let jitterV := (pseudoRandom M x y ((i : ℚ) * 3.73 + 1) - 0.5) * cellVSize
  let sampleU := clampQ (baseU + jitterU) 0 1
  let sampleV := clampQ (baseV + jitterV) 0 1
  let worldX := (sampleU - 0.5) * worldWidth
  let worldZ := (sampleV - 0.5) * worldHeight
  let h := sampleHeight g sampleU sampleV * heightScale
  let yaw := localRand * M.pi * 2
  let tiltX := (pseudoRandom M x y ((i : ℚ) * 5.13) - 0.5) * 0.2
  let tiltZ := (pseudoRandom M x y ((i : ℚ) * 7.91) - 0.5) * 0.2
  let variation := pseudoRandom M x y ((i : ℚ) * 9.31)
  let scaleY := 0.8 + localRand * 0.6
  let scaleX := 0.4 + variation * 0.4
  { texelX := x, texelY := y, sampleU := sampleU, sampleV := sampleV,
    worldX := worldX, posY := h, worldZ := worldZ,
    yaw := yaw, tiltX := tiltX, tiltZ := tiltZ,
    scaleX := scaleX, scaleY := scaleY,
    phase := baseRand * M.pi * 2, stiffness := rng slot,
    colorFactor := variation, heightFactor := variation }

/-- The candidate loop `for (let i = 0; i < count; i++)` of
`createGrassInstancedMesh` (`grass.ts`): each iteration appends one instance
to the buffer; the current `instanceIndex` is the length of the buffer built
so far. -/
def snocFold (f : List GrassInstance → ℕ → GrassInstance)
    (s : List GrassInstance) (n : ℕ) : List GrassInstance :=
  (List.range n).foldl (fun acc i => acc ++ [f acc i]) s

/-- The candidate count of a texel (`grass.ts`): stochastic rounding of
`density * maxPerTexel * scaleFactor` by `baseRand`, hard-clamped to the
remaining capacity `maxInstances - instanceIndex`. -/
def texelCount (maxInstances : ℤ) (scaleFactor baseRand densityValue : ℚ)
    (len : ℕ) : ℤ :=
  let expected := densityValue * 6
  let scaledExpected := expected * scaleFactor
  let baseCount : ℤ := ⌊scaledExpected⌋
  let fractional : ℚ := scaledExpected - (baseCount : ℚ)
  let count0 : ℤ := baseCount + (if baseRand < fractional then 1 else 0)
  let remaining : ℤ := maxInstances - len
  if remaining < count0 then remaining else count0

/-- The clamp in `texelCount` keeps it below the remaining capacity. -/
theorem texelCount_le (maxInstances : ℤ) (scaleFactor baseRand densityValue : ℚ)
    (len : ℕ) :
    texelCount maxInstances scaleFactor baseRand densityValue len ≤
      maxInstances - len := by
  simp only [texelCount]
  split
  · omega
  · omega

/-- The per-texel body of the placement loops (`grass.ts`): skip of
non-positive density, the clamped stochastic candidate count, and the inner
candidate loop.  The inner loop's extra guard `instanceIndex < maxInstances`
never fires because `count <= remaining`, so it appends exactly `count`
instances. -/
def placeTexel (M : MathModel) (g : Heightfield) (d : GrassDensityMap)
    (heightScale : ℚ) (maxInstances : ℤ) (scaleFactor : ℚ) (rng : ℕ → ℚ)
    (s : List GrassInstance) (xy : ℕ × ℕ) : List GrassInstance :=
  let x := xy.1
  let y := xy.2
  let densityValue := d.data.getD (y * d.width + x) 0
  if densityValue ≤ 0 then s
  else
    let cellUSize : ℚ := if 0 < d.width then 1 / (d.width : ℚ) else 1
    let cellVSize : ℚ := if 0 < d.height then 1 / (d.height : ℚ) else 1
    let baseU : ℚ := if 0 < d.width then ((x : ℚ) + 0.5) / (d.width : ℚ) else 0.5
    let baseV : ℚ := if 0 < d.height then ((y : ℚ) + 0.5) / (d.height : ℚ) else 0.5
    let baseRand := pseudoRandom M x y 0.37
    let count : ℤ := texelCount maxInstances scaleFactor baseRand densityValue s.length
    if count ≤ 0 then s
    else
      snocFold (fun acc i =>
        placeInstance M g heightScale rng x y cellUSize cellVSize
          baseU baseV baseRand ((g.width : ℚ) - 1) ((g.height : ℚ) - 1)
          acc.length i) s count.toNat

/-- The texels of patch block `(px, py)`: the sub-rectangle
`[xStart, xEnd) x [yStart, yEnd)` of the density grid, with
`xStart = px * texelsPerPatchX`, `xEnd = min(width, xStart + texelsPerPatchX)`
(`grass.ts`), traversed row-major. -/
def blockCells (d : GrassDensityMap) (texelsPerPatchX texelsPerPatchY px py : ℕ) :
    List (ℕ × ℕ) :=
  let xStart := px * texelsPerPatchX
  let xEnd := min d.width (xStart + texelsPerPatchX)
  let yStart := py * texelsPerPatchY
  let yEnd := min d.height (yStart + texelsPerPatchY)
  (List.range' yStart (yEnd - yStart)).flatMap (fun y =>
    (List.range' xStart (xEnd - xStart)).map (fun x => (x, y)))

/-- One patch block of `createGrassInstancedMesh` (`grass.ts`): the texel
sub-rectangle `[xStart, xEnd) x [yStart, yEnd)` is traversed row-major; the
running position sums of the source are recovered from the instances placed
by this block (`drop patchStart`), which receive exactly one `sumX/Y/Z`
contribution each; the patch is appended only when it placed at least one
instance.  The source's loop conditions `... && instanceIndex < maxInstances`
are not modelled as breaks: once the buffer is full every further texel's
clamped count is non-positive and the texel step is a no-op, so folding over
all texels produces the identical state. -/
def placeBlock (M : MathModel) (g : Heightfield) (d : GrassDensityMap)
    (heightScale : ℚ) (maxInstances : ℤ) (scaleFactor : ℚ) (rng : ℕ → ℚ)
    (texelsPerPatchX texelsPerPatchY : ℕ) (s : PlaceState) (px py : ℕ) : PlaceState :=
  let xStart := px * texelsPerPatchX
  let xEnd := min d.width (xStart + texelsPerPatchX)
  let yStart := py * texelsPerPatchY
  let yEnd := min d.height (yStart + texelsPerPatchY)
  let patchStart := s.instances.length
  let instances :=
    (blockCells d texelsPerPatchX texelsPerPatchY px py).foldl
      (placeTexel M g d heightScale maxInstances scaleFactor rng)
      s.instances
  let placed := instances.drop patchStart
  let patchInstanceCount := instances.length - patchStart
  let sampleCount := placed.length
  if 0 < patchInstanceCount ∧ 0 < sampleCount then
    let sumX := (placed.map (fun inst => inst.worldX)).sum
    let sumY := (placed.map (fun inst => inst.posY)).sum
    let sumZ := (placed.map (fun inst => inst.worldZ)).sum
    let patchWidthWorld :=
      (((xEnd : ℚ) - (xStart : ℚ)) / (max 1 d.width : ℕ)) * ((g.width : ℚ) - 1)
    let patchHeightWorld :=
      (((yEnd : ℚ) - (yStart : ℚ)) / (max 1 d.height : ℕ)) * ((g.height : ℚ) - 1)
    let radius := M.sqrt ((patchWidthWorld * patchWidthWorld +
      patchHeightWorld * patchHeightWorld) * 0.25)
    let patch : GrassPatch :=
      { centerX := sumX / (sampleCount : ℚ), centerY := sumY / (sampleCount : ℚ),
        centerZ := sumZ / (sampleCount : ℚ), radius := radius,
        startInstance := patchStart, instanceCount := patchInstanceCount }
    { instances := instances, patches := s.patches ++ [patch] }
  else { instances := instances, patches := s.patches }

/-- The capacity pre-pass of `createGrassInstancedMesh` (`grass.ts`): the sum
of `density * maxPerTexel` over the texels with positive density. -/
def totalExpected (d : GrassDensityMap) : ℚ :=
  ((List.range d.height).map (fun y =>
    ((List.range d.width).map (fun x =>
      let densityValue := d.data.getD (y * d.width + x) 0
      if densityValue ≤ 0 then 0 else densityValue * 6)).sum)).sum

/-- The placement loops of `createGrassInstancedMesh` (`grass.ts`): capacity
pre-pass, 16x16 patch grid (`Math.ceil` of the texel dimensions), row-major
patch traversal.  `maxPerTexel = 6`. -/
def placeFinal (M : MathModel) (g : Heightfield) (d : GrassDensityMap)
    (heightScale : ℚ) (maxInstances : ℤ) (rng : ℕ → ℚ) : PlaceState :=
  let total := totalExpected d
  let scaleFactor : ℚ :=
    if (maxInstances : ℚ) < total ∧ 0 < total then (maxInstances : ℚ) / total else 1
  let patchCountX : ℕ := 16
  let patchCountY : ℕ := 16
  let texelsPerPatchX : ℕ := (d.width + patchCountX - 1) / patchCountX
  let texelsPerPatchY : ℕ := (d.height + patchCountY - 1) / patchCountY
  (List.range patchCountY).foldl (fun s py =>
    (List.range patchCountX).foldl (fun s px =>
      placeBlock M g d heightScale maxInstances scaleFactor rng
        texelsPerPatchX texelsPerPatchY s px py) s)
    { instances := [], patches := [] }

/-- Packaging of the final placement state: `mesh.count = instanceIndex`,
the patch list, and the capacity (`lod.maxInstances`). -/
def placeCore (M : MathModel) (g : Heightfield) (d : GrassDensityMap)
    (heightScale : ℚ) (maxInstances : ℤ) (rng : ℕ → ℚ) : PlaceResult :=
  { instances := (placeFinal M g d heightScale maxInstances rng).instances,
    count := (placeFinal M g d heightScale maxInstances rng).instances.length,
    patches := (placeFinal M g d heightScale maxInstances rng).patches,
    maxInstances := maxInstances }

/-- `createGrassInstancedMesh(heightfield, density, options)` (`grass.ts`).
Before any placement the source allocates `new InstancedMesh(..,
maxInstances)` and four `new Float32Array(maxInstances)` attribute buffers; a
JS typed-array constructor throws a `RangeError` when its length is negative,
so a negative `maxInstances` aborts the call with an exception before any
output is produced. -/
def createGrassInstancedMesh (M : MathModel) (g : Heightfield)
    (d : GrassDensityMap) (heightScale : ℚ) (maxInstances : ℤ)
    (rng : ℕ → ℚ) : Except String PlaceResult :=
  if maxInstances < 0 then .error "RangeError: invalid typed array length"
  else .ok (placeCore M g d heightScale maxInstances rng)

/-! ### Generic fold and list lemmas -/

/-- A predicate preserved by every step of a left fold holds for the result. -/
theorem foldl_inv {α β : Type} (f : β → α → β) (P : β → Prop)
    (h : ∀ b a, P b → P (f b a)) : ∀ (l : List α) (b : β), P b → P (l.foldl f b) := by
  intro l
  induction l with
  | nil => intro b hb; exact hb
  | cons a t ih => intro b hb; exact ih (f b a) (h b a hb)

/-- An element commuting with every member of a list can be pulled out of a
left fold. -/
theorem foldl_pull {α β : Type} (f : β → α → β) (a : α) :
    ∀ (s : List α), (∀ x ∈ s, ∀ b, f (f b a) x = f (f b x) a) →
      ∀ b, s.foldl f (f b a) = f (s.foldl f b) a := by
  intro s
  induction s with
  | nil => intro _ b; rfl
  | cons x t ih =>
    intro h b
    have hx := h x (List.mem_cons_self x t) b
    simp only [List.foldl_cons, hx]
    exact ih (fun z hz => h z (List.mem_cons_of_mem x hz)) (f b x)

/-- A left fold whose steps pairwise commute on the members of the list is
invariant under reversing the traversal order. -/
theorem foldl_reverse_of_comm {α β : Type} (f : β → α → β) :
    ∀ (l : List α), (∀ x ∈ l, ∀ y ∈ l, ∀ b, f (f b x) y = f (f b y) x) →
      ∀ b, l.foldl f b = l.reverse.foldl f b := by
  intro l
  induction l with
  | nil => intro _ b; rfl
  | cons a t ih =>
    intro h b
    have hmem : ∀ x ∈ t, ∀ y ∈ t, ∀ b, f (f b x) y = f (f b y) x := by
      intro x hx y hy
      exact h x (List.mem_cons_of_mem a hx) y (List.mem_cons_of_mem a hy)
    have step1 : t.foldl f (f b a) = t.reverse.foldl f (f b a) := ih hmem (f b a)
    have hp : ∀ x ∈ t.reverse, ∀ c, f (f c a) x = f (f c x) a := by
      intro x hx c
      exact h a (List.mem_cons_self a t) x
        (List.mem_cons_of_mem a (List.mem_reverse.mp hx)) c
    calc (a :: t).foldl f b = t.foldl f (f b a) := rfl
      _ = t.reverse.foldl f (f b a) := step1
      _ = f (t.reverse.foldl f b) a := foldl_pull f a t.reverse hp b
      _ = (t.reverse ++ [a]).foldl f b := by rw [List.foldl_append]; rfl
      _ = (a :: t).reverse.foldl f b := by rw [List.reverse_cons]

/-- `getD` at a fixed position is preserved by a fold whose every step
preserves it (given that it still agrees with the initial buffer). -/
theorem foldl_getD_inv {α : Type} (f : List ℚ → α → List ℚ) (i : ℕ)
    (d0 : List ℚ) (cells : List α)
    (h : ∀ data c, c ∈ cells → data.getD i 0 = d0.getD i 0 →
      (f data c).getD i 0 = data.getD i 0) :
    (cells.foldl f d0).getD i 0 = d0.getD i 0 := by
  suffices hgen : ∀ (l : List α), (∀ c ∈ l, c ∈ cells) →
      ∀ data, data.getD i 0 = d0.getD i 0 →
        (l.foldl f data).getD i 0 = d0.getD i 0 by
    exact hgen cells (fun c hc => hc) d0 rfl
  intro l
  induction l with
  | nil => intro _ data hd; exact hd
  | cons c t ih =>
    intro hsub data hd
    have hc : c ∈ cells := hsub c (List.mem_cons_self c t)
    have hstep := h data c hc hd
    exact ih (fun z hz => hsub z (List.mem_cons_of_mem c hz)) (f data c)
      (hstep.trans hd)

/-- Setting an index different from `i` does not change `getD i`. -/
theorem getD_set_ne (data : List ℚ) (j : ℕ) (v : ℚ) (i : ℕ) (h : j ≠ i) :
    (data.set j v).getD i 0 = data.getD i 0 := by
  simp [List.getD_eq_getElem?_getD, List.getElem?_set_ne h]

/-- Writing back the value already stored at `i` does not change `getD i`. -/
theorem getD_set_self (data : List ℚ) (i : ℕ) :
    (data.set i (data.getD i 0)).getD i 0 = data.getD i 0 := by
  by_cases hlen : i < data.length
  · simp [List.getD_eq_getElem?_getD, List.getElem?_set_self hlen,
      List.getElem?_eq_getElem hlen]
  · simp [List.set_eq_of_length_le (Nat.le_of_not_lt hlen)]

/-- Membership in `intRange lo hi` is exactly `lo ≤ x ≤ hi`. -/
theorem mem_intRange {lo hi x : ℤ} : x ∈ intRange lo hi ↔ lo ≤ x ∧ x ≤ hi := by
  unfold intRange
  constructor
  · intro h
    obtain ⟨i, hi', hx⟩ := List.mem_map.mp h
    have hlt := List.mem_range.mp hi'
    omega
  · intro h
    apply List.mem_map.mpr
    exact ⟨(x - lo).toNat, List.mem_range.mpr (by omega), by omega⟩

/-- Row-major flat indexing `y * width + x` is injective on in-row
coordinates `0 ≤ x < width`. -/
theorem flatIndex_inj {w : ℕ} {x1 y1 x2 y2 : ℤ} (hx1 : 0 ≤ x1) (hx1w : x1 < w)
    (hx2 : 0 ≤ x2) (hx2w : x2 < w)
    (h : y1 * w + x1 = y2 * w + x2) : x1 = x2 ∧ y1 = y2 := by
  have hw : 0 < (w : ℤ) := lt_of_le_of_lt hx1 hx1w
  have hy : y1 = y2 := by
    rcases lt_trichotomy y1 y2 with hlt | heq | hgt
    · nlinarith [mul_le_mul_of_nonneg_right (Int.add_one_le_iff.mpr hlt) (le_of_lt hw)]
    · exact heq
    · nlinarith [mul_le_mul_of_nonneg_right (Int.add_one_le_iff.mpr hgt) (le_of_lt hw)]
  constructor
  · nlinarith [hy]
  · exact hy

/-! ### Arithmetic facts about the numeric helpers -/

/-- `fract` always lands in `[0, 1)`. -/
theorem fractQ_nonneg (v : ℚ) : 0 ≤ fractQ v := by
  unfold fractQ
  have := Int.floor_le v
  linarith

/-- `fract` always lands in `[0, 1)`. -/
theorem fractQ_lt_one (v : ℚ) : fractQ v < 1 := by
  unfold fractQ
  have := Int.lt_floor_add_one v
  linarith

/-- `pseudoRandom` always lands in `[0, 1)`. -/
theorem pseudoRandom_nonneg (M : MathModel) (x y : ℕ) (seed : ℚ) :
    0 ≤ pseudoRandom M x y seed := fractQ_nonneg _

/-- `pseudoRandom` always lands in `[0, 1)`. -/
theorem pseudoRandom_lt_one (M : MathModel) (x y : ℕ) (seed : ℚ) :
    pseudoRandom M x y seed < 1 := fractQ_lt_one _

/-- The clamp is the identity on values already inside the interval. -/
theorem clampQ_eq_self {v lo hi : ℚ} (h1 : lo ≤ v) (h2 : v ≤ hi) :
    clampQ v lo hi = v := by
  unfold clampQ
  rw [min_eq_right h2, max_eq_right h1]

/-! ### Sculpt brush: bounds of the visited texels and step commutation -/

/-- Every texel visited by the brush lies inside the grid: the bounding box is
clipped to `[0, width-1] x [0, height-1]`. -/
theorem brushCells_mem {g : Heightfield} {centerX centerY radius : ℚ}
    {c : ℤ × ℤ} (h : c ∈ brushCells g centerX centerY radius) :
    0 ≤ c.1 ∧ c.1 < (g.width : ℤ) ∧ 0 ≤ c.2 ∧ c.2 < (g.height : ℤ) := by
  unfold brushCells at h
  obtain ⟨y, hy, hc⟩ := List.mem_flatMap.mp h
  obtain ⟨x, hx, rfl⟩ := List.mem_map.mp hc
  have hxb := mem_intRange.mp hx
  have hyb := mem_intRange.mp hy
  simp only [le_max_iff, le_min_iff, max_le_iff, min_le_iff] at hxb hyb
  constructor
  · omega
  constructor
  · omega
  constructor
  · omega
  · omega

/-- Two smooth-mode brush steps at in-grid texels commute: the written value
is computed from the pre-brush snapshot only, and distinct texels write to
distinct flat indices. -/
theorem brushStep_smooth_comm (M : MathModel) (centerX centerY radius intensity : ℚ)
    (snapshot : List ℚ) (width height : ℕ) (c1 c2 : ℤ × ℤ)
    (h1 : 0 ≤ c1.1 ∧ c1.1 < (width : ℤ) ∧ 0 ≤ c1.2)
    (h2 : 0 ≤ c2.1 ∧ c2.1 < (width : ℤ) ∧ 0 ≤ c2.2) (data : List ℚ) :
    brushStep M centerX centerY ⟨radius, intensity, .smooth⟩ snapshot width height
      (brushStep M centerX centerY ⟨radius, intensity, .smooth⟩ snapshot width height
        data c1) c2 =
    brushStep M centerX centerY ⟨radius, intensity, .smooth⟩ snapshot width height
      (brushStep M centerX centerY ⟨radius, intensity, .smooth⟩ snapshot width height
        data c2) c1 := by
  by_cases hc : c1 = c2
  · rw [hc]
  · have hi1 : (0 : ℤ) ≤ c1.2 * width + c1.1 := by nlinarith [h1.1, h1.2.2]
    have hi2 : (0 : ℤ) ≤ c2.2 * width + c2.1 := by nlinarith [h2.1, h2.2.2]
    have hne : (c1.2 * width + c1.1).toNat ≠ (c2.2 * width + c2.1).toNat := by
      intro heq
      have : c1.2 * width + c1.1 = c2.2 * width + c2.1 := by omega
      obtain ⟨hx, hy⟩ := flatIndex_inj h1.1 h1.2.1 h2.1 h2.2.1 this
      exact hc (Prod.ext hx hy)
    unfold brushStep
    by_cases hs1 : radius < M.sqrt (((c1.1 : ℚ) - centerX) * ((c1.1 : ℚ) - centerX) +
        ((c1.2 : ℚ) - centerY) * ((c1.2 : ℚ) - centerY)) <;>
      by_cases hs2 : radius < M.sqrt (((c2.1 : ℚ) - centerX) * ((c2.1 : ℚ) - centerX) +
        ((c2.2 : ℚ) - centerY) * ((c2.2 : ℚ) - centerY)) <;>
      simp only [hs1, hs2, if_pos, if_neg, not_false_iff, if_true, if_false,
        hi1, hi2] <;>
      simp [hi1, hi2, hs1, hs2]
    exact List.set_comm _ _ _ hne

/-- C8 helper: the final heightfield of a smooth brush application does not
depend on the traversal direction of the texel list. -/
theorem applyBrushCells_smooth_reverse (M : MathModel) (g : Heightfield)
    (centerX centerY radius intensity : ℚ) :
    applyBrushCells M g centerX centerY ⟨radius, intensity, .smooth⟩
      (brushCells g centerX centerY radius) =
    applyBrushCells M g centerX centerY ⟨radius, intensity, .smooth⟩
      (brushCells g centerX centerY radius).reverse := by
  unfold applyBrushCells
  have hcomm : ∀ c1 ∈ brushCells g centerX centerY radius,
      ∀ c2 ∈ brushCells g centerX centerY radius, ∀ data,
      brushStep M centerX centerY ⟨radius, intensity, .smooth⟩ g.data g.width g.height
        (brushStep M centerX centerY ⟨radius, intensity, .smooth⟩ g.data g.width
          g.height data c1) c2 =
      brushStep M centerX centerY ⟨radius, intensity, .smooth⟩ g.data g.width g.height
        (brushStep M centerX centerY ⟨radius, intensity, .smooth⟩ g.data g.width
          g.height data c2) c1 := by
    intro c1 hc1 c2 hc2 data
    obtain ⟨a1, b1, c1', _⟩ := brushCells_mem hc1
    obtain ⟨a2, b2, c2', _⟩ := brushCells_mem hc2
    exact brushStep_smooth_comm M centerX centerY radius intensity g.data g.width
      g.height c1 c2 ⟨a1, b1, c1'⟩ ⟨a2, b2, c2'⟩ data
  rw [foldl_reverse_of_comm _ _ hcomm]

/-- A brush step leaves position `j` of the buffer unchanged when the step's
texel is skipped (distance beyond the radius) or writes to a different flat
index. -/
theorem brushStep_getD_preserve (M : MathModel) (centerX centerY : ℚ)
    (cfg : SculptBrushConfig) (snapshot : List ℚ) (width height : ℕ)
    (data : List ℚ) (c : ℤ × ℤ) (j : ℕ)
    (h : (c.2 * width + c.1).toNat ≠ j ∨
      cfg.radius < M.sqrt (((c.1 : ℚ) - centerX) * ((c.1 : ℚ) - centerX) +
        ((c.2 : ℚ) - centerY) * ((c.2 : ℚ) - centerY))) :
    (brushStep M centerX centerY cfg snapshot width height data c).getD j 0 =
      data.getD j 0 := by
  unfold brushStep
  by_cases hskip : cfg.radius < M.sqrt (((c.1 : ℚ) - centerX) * ((c.1 : ℚ) - centerX) +
      ((c.2 : ℚ) - centerY) * ((c.2 : ℚ) - centerY))
  · simp [hskip]
  · have hne : (c.2 * width + c.1).toNat ≠ j := h.resolve_right hskip
    rcases hmode : cfg.mode with _ | _ | _ <;>
      simp only [hskip, if_neg, not_false_iff, hmode] <;>
      by_cases hpos : (0 : ℤ) ≤ c.2 * width + c.1 <;>
      simp [hpos, List.getElem?_set_ne hne]

/-- The flat index of an in-grid texel, written as an integer, is the cast of
its natural row-major index. -/
theorem flat_cast (w x y : ℕ) : (y : ℤ) * (w : ℤ) + (x : ℤ) = ((y * w + x : ℕ) : ℤ) := by
  push_cast
  ring

/-- C9 helper, far case: a texel strictly beyond the brush radius keeps its
height, whatever the brush mode.  `hsq` is the characterizing property of the
real square root at the brush radius. -/
theorem applyBrush_far_unchanged (M : MathModel) (g : Heightfield)
    (centerX centerY : ℚ) (cfg : SculptBrushConfig) (x y : ℕ)
    (hx : (x : ℤ) < g.width)
    (hsq : ∀ q : ℚ, 0 ≤ q → (cfg.radius < M.sqrt q ↔ cfg.radius * cfg.radius < q))
    (hfar : cfg.radius * cfg.radius <
      ((x : ℚ) - centerX) * ((x : ℚ) - centerX) +
      ((y : ℚ) - centerY) * ((y : ℚ) - centerY)) :
    (applyBrush M g centerX centerY cfg).data.getD (y * g.width + x) 0 =
      g.data.getD (y * g.width + x) 0 := by
  unfold applyBrush applyBrushCells
  apply foldl_getD_inv
  intro data c hc _
  apply brushStep_getD_preserve
  by_cases hcxy : c = ((x : ℤ), (y : ℤ))
  · right
    subst hcxy
    have hnn : (0 : ℚ) ≤ ((x : ℚ) - centerX) * ((x : ℚ) - centerX) +
        ((y : ℚ) - centerY) * ((y : ℚ) - centerY) :=
      add_nonneg (mul_self_nonneg _) (mul_self_nonneg _)
    have := (hsq _ hnn).mpr hfar
    simpa using this
  · left
    obtain ⟨hc1, hc1w, hc2, _⟩ := brushCells_mem hc
    intro htn
    have hpos : (0 : ℤ) ≤ c.2 * g.width + c.1 := by nlinarith
    have heq : c.2 * (g.width : ℤ) + c.1 = (y : ℤ) * g.width + x := by
      rw [flat_cast]
      omega
    obtain ⟨hxx, hyy⟩ := flatIndex_inj hc1 hc1w (Int.ofNat_nonneg x) hx heq
    exact hcxy (Prod.ext hxx hyy)

/-- C9 helper, boundary case: a texel at distance exactly the radius gets
falloff `0` and is written back with its unchanged value, whatever the brush
mode. -/
theorem applyBrush_boundary_unchanged (M : MathModel) (g : Heightfield)
    (centerX centerY : ℚ) (cfg : SculptBrushConfig) (x y : ℕ)
    (hx : (x : ℤ) < g.width) (hr : 0 < cfg.radius)
    (hdist : ((x : ℚ) - centerX) * ((x : ℚ) - centerX) +
      ((y : ℚ) - centerY) * ((y : ℚ) - centerY) = cfg.radius * cfg.radius)
    (hsq : M.sqrt (cfg.radius * cfg.radius) = cfg.radius) :
    (applyBrush M g centerX centerY cfg).data.getD (y * g.width + x) 0 =
      g.data.getD (y * g.width + x) 0 := by
  unfold applyBrush applyBrushCells
  apply foldl_getD_inv
  intro data c hc hdata
  by_cases hcxy : c = ((x : ℤ), (y : ℤ))
  · subst hcxy
    unfold brushStep
    have hexpr : (((x : ℤ) : ℚ) - centerX) * (((x : ℤ) : ℚ) - centerX) +
        (((y : ℤ) : ℚ) - centerY) * (((y : ℤ) : ℚ) - centerY) =
        cfg.radius * cfg.radius := by
      push_cast
      push_cast at hdist
      linarith
    have hskip : ¬ cfg.radius < M.sqrt ((((x : ℤ) : ℚ) - centerX) *
        (((x : ℤ) : ℚ) - centerX) + (((y : ℤ) : ℚ) - centerY) *
        (((y : ℤ) : ℚ) - centerY)) := by
      rw [hexpr, hsq]
      exact lt_irrefl _
    have hfall : (0 : ℚ) ⊔ (1 - M.sqrt ((((x : ℤ) : ℚ) - centerX) *
        (((x : ℤ) : ℚ) - centerX) + (((y : ℤ) : ℚ) - centerY) *
        (((y : ℤ) : ℚ) - centerY)) / cfg.radius) = 0 := by
      rw [hexpr, hsq, div_self (ne_of_gt hr)]
      simp
    have hidx : ((y : ℤ) * (g.width : ℤ) + (x : ℤ)).toNat = y * g.width + x := by
      rw [flat_cast]
      exact Int.toNat_natCast _
    have hpos : (0 : ℤ) ≤ (y : ℤ) * (g.width : ℤ) + (x : ℤ) := by positivity
    rcases hmode : cfg.mode with _ | _ | _ <;>
      simp only [hskip, if_neg, not_false_iff, hmode, hfall] <;>
      simp only [hpos, if_pos, mul_zero, zero_mul, add_zero, lerpQ, sub_zero,
        mul_neg, mul_one, neg_zero, hidx]
    · exact getD_set_self data _
    · exact getD_set_self data _
    · rw [← hdata]
      exact getD_set_self data _
  · apply brushStep_getD_preserve
    left
    obtain ⟨hc1, hc1w, hc2, _⟩ := brushCells_mem hc
    intro htn
    have hpos : (0 : ℤ) ≤ c.2 * g.width + c.1 := by nlinarith
    have heq : c.2 * (g.width : ℤ) + c.1 = (y : ℤ) * g.width + x := by
      rw [flat_cast]
      omega
    obtain ⟨hxx, hyy⟩ := flatIndex_inj hc1 hc1w (Int.ofNat_nonneg x) hx heq
    exact hcxy (Prod.ext hxx hyy)

/-- C9 helper, cited scenario: on a 4x4 all-zero grid, `Raise` at center
`(1,1)` with radius 1 and intensity 1 sets `height(1,1) = 1` and leaves
`height(0,1) = 0` (distance = radius, falloff 0).  The hypotheses are the
values of the real square root at the three squared distances that occur. -/
theorem applyBrush_raise_scenario (M : MathModel) (h0 : M.sqrt 0 = 0)
    (h1 : M.sqrt 1 = 1) (h2 : 1 < M.sqrt 2) :
    (applyBrush M { width := 4, height := 4, data := List.replicate 16 0 } 1 1
      { radius := 1, intensity := 1, mode := .raise }).at 1 1 = 1 ∧
    (applyBrush M { width := 4, height := 4, data := List.replicate 16 0 } 1 1
      { radius := 1, intensity := 1, mode := .raise }).at 0 1 = 0 := by
  have hcells :
      brushCells { width := 4, height := 4, data := List.replicate 16 0 } 1 1 1 =
        [(0, 0), (1, 0), (2, 0), (0, 1), (1, 1), (2, 1), (0, 2), (1, 2), (2, 2)] := by
    norm_num [brushCells, intRange]
    rw [show Int.toNat 3 = 3 from rfl]
    norm_num [List.range_succ]
  unfold applyBrush applyBrushCells
  rw [hcells]
  norm_num [brushStep, h0, h1, h2, List.replicate, Heightfield.at, Heightfield.getHeight]
  norm_num [show Int.toNat 1 = 1 from rfl, show Int.toNat 4 = 4 from rfl,
    show Int.toNat 5 = 5 from rfl, show Int.toNat 6 = 6 from rfl,
    show Int.toNat 9 = 9 from rfl]

/-- C8: during a single `applyBrush` call in Smooth mode every texel's
smoothing target is computed from the pre-brush snapshot of the entire grid,
so traversing the affected texels in row-major order (which is what
`applyBrush` does) and in reverse order produce identical final grids. -/
theorem smooth_brush_order_independence (M : MathModel) (g : Heightfield)
    (centerX centerY radius intensity : ℚ) :
    applyBrushCells M g centerX centerY ⟨radius, intensity, .smooth⟩
      (brushCells g centerX centerY radius).reverse =
    applyBrush M g centerX centerY ⟨radius, intensity, .smooth⟩ :=
  (applyBrushCells_smooth_reverse M g centerX centerY radius intensity).symm

/-- C9: after `applyBrush` in any mode, a texel strictly farther from the
brush center than the radius is unchanged (first conjunct, with the distance
condition stated on squared distances and the square-root model characterized
at the radius); a texel at distance exactly the radius has falloff 0 and is
unchanged (second conjunct); and on a 4x4 all-zero grid, Raise at (1,1) with
radius 1 and intensity 1 yields height(1,1) = 1 and height(0,1) = 0 (third
conjunct). -/
theorem brush_falloff_boundary :
    (∀ (M : MathModel) (g : Heightfield) (centerX centerY : ℚ)
      (cfg : SculptBrushConfig) (x y : ℕ), (x : ℤ) < g.width →
      (∀ q : ℚ, 0 ≤ q → (cfg.radius < M.sqrt q ↔ cfg.radius * cfg.radius < q)) →
      cfg.radius * cfg.radius <
        ((x : ℚ) - centerX) * ((x : ℚ) - centerX) +
        ((y : ℚ) - centerY) * ((y : ℚ) - centerY) →
      (applyBrush M g centerX centerY cfg).data.getD (y * g.width + x) 0 =
        g.data.getD (y * g.width + x) 0) ∧
    (∀ (M : MathModel) (g : Heightfield) (centerX centerY : ℚ)
      (cfg : SculptBrushConfig) (x y : ℕ), (x : ℤ) < g.width → 0 < cfg.radius →
      ((x : ℚ) - centerX) * ((x : ℚ) - centerX) +
        ((y : ℚ) - centerY) * ((y : ℚ) - centerY) = cfg.radius * cfg.radius →
      M.sqrt (cfg.radius * cfg.radius) = cfg.radius →
      (applyBrush M g centerX centerY cfg).data.getD (y * g.width + x) 0 =
        g.data.getD (y * g.width + x) 0) ∧
    (∀ M : MathModel, M.sqrt 0 = 0 → M.sqrt 1 = 1 → 1 < M.sqrt 2 →
      (applyBrush M { width := 4, height := 4, data := List.replicate 16 0 } 1 1
        { radius := 1, intensity := 1, mode := .raise }).at 1 1 = 1 ∧
      (applyBrush M { width := 4, height := 4, data := List.replicate 16 0 } 1 1
        { radius := 1, intensity := 1, mode := .raise }).at 0 1 = 0) := by
  refine ⟨?_, ?_, ?_⟩
  · intro M g centerX centerY cfg x y hx hsq hfar
    exact applyBrush_far_unchanged M g centerX centerY cfg x y hx hsq hfar
  · intro M g centerX centerY cfg x y hx hr hdist hsq
    exact applyBrush_boundary_unchanged M g centerX centerY cfg x y hx hr hdist hsq
  · intro M h0 h1 h2
    exact applyBrush_raise_scenario M h0 h1 h2

/-- A concrete math model: `sin`/`cos` identically `0`, `sqrt` the identity
(which agrees with the real square root at `0` and `1` and stays above `1` on
inputs above `1`), `pi = 0`.  Used to instantiate theorems at concrete
inputs. -/
def M0 : MathModel := { sin := fun _ => 0, cos := fun _ => 0, sqrt := fun q => q, pi := 0 }

/-- The 4x4 all-zero heightfield of the brush scenario. -/
def g4 : Heightfield := { width := 4, height := 4, data := List.replicate 16 0 }

/-- C9 witness: the three parts of `brush_falloff_boundary` instantiated on
the 4x4 zero grid with the identity square-root model: texel `(3,3)` (squared
distance 8) and texel `(0,1)` (squared distance 1 = radius squared) keep
height 0, and the cited scenario values hold. -/
theorem brush_falloff_boundary_witness :
    (applyBrush M0 g4 1 1 { radius := 1, intensity := 1, mode := .raise }).data.getD
        (3 * g4.width + 3) 0 = g4.data.getD (3 * g4.width + 3) 0 ∧
    (applyBrush M0 g4 1 1 { radius := 1, intensity := 1, mode := .raise }).data.getD
        (1 * g4.width + 0) 0 = g4.data.getD (1 * g4.width + 0) 0 ∧
    (applyBrush M0 g4 1 1 { radius := 1, intensity := 1, mode := .raise }).at 1 1 = 1 ∧
    (applyBrush M0 g4 1 1 { radius := 1, intensity := 1, mode := .raise }).at 0 1 = 0 := by
  refine ⟨?_, ?_, ?_⟩
  · exact brush_falloff_boundary.1 M0 g4 1 1 _ 3 3 (by norm_num [g4])
      (fun q hq => by norm_num [M0]) (by norm_num)
  · exact brush_falloff_boundary.2.1 M0 g4 1 1 _ 0 1 (by norm_num [g4])
      (by norm_num) (by norm_num) (by norm_num [M0])
  · exact brush_falloff_boundary.2.2 M0 rfl rfl (by norm_num [M0])

/-! ### Density field: bounds, dimensions, and the resolution clamp -/

/-- The 2x2 zero heightfield used for concrete instantiations. -/
def hf2 : Heightfield := { width := 2, height := 2, data := [0, 0, 0, 0] }

/-- The 1x1 full-density map used for concrete instantiations. -/
def d1 : GrassDensityMap := { width := 1, height := 1, data := [1] }

/-- Every texel value produced by the per-texel density computation lies in
`[0, 1]`: the last step of the source is `Math.max(0, Math.min(1, density))`. -/
theorem densityTexel_bounds (M : MathModel) (g : Heightfield)
    (p : GrassDensityParams) (width height : ℕ) (su sv : ℚ) (x y : ℕ) :
    0 ≤ densityTexel M g p width height su sv x y ∧
      densityTexel M g p width height su sv x y ≤ 1 := by
  unfold densityTexel
  constructor
  · exact le_max_left _ _
  · exact max_le (by norm_num) (min_le_left _ _)

/-- Length of a row-major grid buffer built as a flattened map of rows. -/
theorem flatten_grid_length {a : Type} (f : ℕ → ℕ → a) (w h : ℕ) :
    (((List.range h).map (fun y => (List.range w).map (fun x => f x y))).flatten).length =
      w * h := by
  rw [List.length_flatten, List.map_map]
  have hcomp : (List.length ∘ fun y => (List.range w).map (fun x => f x y)) =
      fun _ => w := by
    funext y
    simp
  rw [hcomp, List.map_const', List.length_range, List.sum_replicate, smul_eq_mul,
    mul_comm]

/-- The density buffer has exactly `width * height` texels. -/
theorem createGrassDensityMap_data_length (M : MathModel) (g : Heightfield)
    (p : GrassDensityParams) :
    (createGrassDensityMap M g p).1.data.length =
      (createGrassDensityMap M g p).1.width * (createGrassDensityMap M g p).1.height := by
  unfold createGrassDensityMap
  exact flatten_grid_length _ _ _

/-- C7: for every heightfield and density parameters, every texel value of
the built density field lies within `[0, 1]`, and building the field does not
modify the heightfield (the state threaded through the computation is
returned unchanged, there being no write to the grid in the source). -/
theorem density_values_in_unit_interval (M : MathModel) (g : Heightfield)
    (p : GrassDensityParams) :
    (∀ value ∈ (createGrassDensityMap M g p).1.data, 0 ≤ value ∧ value ≤ 1) ∧
    (createGrassDensityMap M g p).2 = g := by
  constructor
  · intro value hv
    unfold createGrassDensityMap at hv
    simp only [List.mem_flatten, List.mem_map] at hv
    obtain ⟨row, ⟨y, hy, hrow⟩, hvrow⟩ := hv
    rw [← hrow] at hvrow
    obtain ⟨x, hx, hval⟩ := List.mem_map.mp hvrow
    rw [← hval]
    exact densityTexel_bounds M g p _ _ _ _ x y
  · rfl

/-- C7 witness: the bounds instantiated on the 2x2 zero heightfield with
default resolution, at the first produced texel. -/
theorem density_values_in_unit_interval_witness :
    0 ≤ (createGrassDensityMap M0 hf2
        { minHeight := 0, maxHeight := 1, maxSlope := 1, resolution := none }).1.data.getD 0 0 ∧
      (createGrassDensityMap M0 hf2
        { minHeight := 0, maxHeight := 1, maxSlope := 1, resolution := none }).1.data.getD 0 0 ≤ 1 := by
  have hlen : (createGrassDensityMap M0 hf2
      { minHeight := 0, maxHeight := 1, maxSlope := 1, resolution := none }).1.data.length = 4 := by
    rw [createGrassDensityMap_data_length]
    norm_num [createGrassDensityMap, hf2]
    rw [show Int.toNat 2 = 2 from rfl]
  have hpos : 0 < (createGrassDensityMap M0 hf2
      { minHeight := 0, maxHeight := 1, maxSlope := 1, resolution := none }).1.data.length := by
    omega
  have hmem : (createGrassDensityMap M0 hf2
      { minHeight := 0, maxHeight := 1, maxSlope := 1, resolution := none }).1.data.getD 0 0 ∈
      (createGrassDensityMap M0 hf2
        { minHeight := 0, maxHeight := 1, maxSlope := 1, resolution := none }).1.data := by
    rw [List.getD_eq_getElem?_getD, List.getElem?_eq_getElem hpos]
    exact List.getElem_mem hpos
  exact (density_values_in_unit_interval M0 hf2
    { minHeight := 0, maxHeight := 1, maxSlope := 1, resolution := none }).1 _ hmem

/-- C3 (amended): a non-positive density resolution is not rejected; the
builder silently clamps both dimensions through
`Math.max(1, Math.floor(resolution))` and produces a full 1x1 density field. -/
theorem density_resolution_clamped (M : MathModel) (g : Heightfield)
    (p : GrassDensityParams) (r : ℚ) (hres : p.resolution = some r) (hr : r ≤ 0) :
    (createGrassDensityMap M g p).1.width = 1 ∧
    (createGrassDensityMap M g p).1.height = 1 ∧
    (createGrassDensityMap M g p).1.data.length = 1 := by
  have hfloor : ⌊r⌋ ≤ 0 := by
    have := Int.floor_le_floor hr
    simpa using this
  have hmax : max 1 ⌊r⌋ = 1 := by omega
  have hw : (createGrassDensityMap M g p).1.width = 1 := by
    show (max 1 ⌊p.resolution.getD (g.width : ℚ)⌋).toNat = 1
    rw [hres]
    show (max 1 ⌊r⌋).toNat = 1
    rw [hmax]
    rfl
  have hh : (createGrassDensityMap M g p).1.height = 1 := by
    show (max 1 ⌊p.resolution.getD (g.height : ℚ)⌋).toNat = 1
    rw [hres]
    show (max 1 ⌊r⌋).toNat = 1
    rw [hmax]
    rfl
  refine ⟨hw, hh, ?_⟩
  rw [createGrassDensityMap_data_length, hw, hh]

/-- C3 counterexample: with the concrete non-positive resolution `-3` the
builder does not fail: it returns a complete 1x1 density field, the
resolution having been silently clamped to 1. -/
theorem density_resolution_no_error :
    (createGrassDensityMap M0 hf2
      { minHeight := 0, maxHeight := 1, maxSlope := 1, resolution := some (-3) }).1.width = 1 ∧
    (createGrassDensityMap M0 hf2
      { minHeight := 0, maxHeight := 1, maxSlope := 1, resolution := some (-3) }).1.height = 1 ∧
    (createGrassDensityMap M0 hf2
      { minHeight := 0, maxHeight := 1, maxSlope := 1, resolution := some (-3) }).1.data.length = 1 := by
  refine ⟨?_, ?_, ?_⟩
  · norm_num [createGrassDensityMap]
  · norm_num [createGrassDensityMap]
  · rw [createGrassDensityMap_data_length]
    norm_num [createGrassDensityMap]

/-- C3 witness: `density_resolution_clamped` applied at the concrete
resolution `-3` on the 2x2 zero heightfield. -/
theorem density_resolution_clamped_witness :
    (createGrassDensityMap M0 hf2
      { minHeight := 0, maxHeight := 1, maxSlope := 1, resolution := some (-3) }).1.width = 1 ∧
    (createGrassDensityMap M0 hf2
      { minHeight := 0, maxHeight := 1, maxSlope := 1, resolution := some (-3) }).1.height = 1 ∧
    (createGrassDensityMap M0 hf2
      { minHeight := 0, maxHeight := 1, maxSlope := 1, resolution := some (-3) }).1.data.length = 1 :=
  density_resolution_clamped M0 hf2 _ (-3) rfl (by norm_num)

/-! ### Heightfield indexed access -/

/-- C4 (amended): `getHeight` and `setHeight` validate nothing: they use the
flat row-major index `y * width + x` directly, so the out-of-range pair
`(x, y)` with `x` shifted by one row width behaves exactly like
`(x - width, y + 1)` — out-of-range indices silently alias other texels
instead of raising an error or clamping. -/
theorem heightfield_index_alias (g : Heightfield) (x y : ℤ) (v : ℚ) :
    g.getHeight x y = g.getHeight (x - g.width) (y + 1) ∧
    g.setHeight x y v = g.setHeight (x - g.width) (y + 1) v := by
  have hidx : (y + 1) * (g.width : ℤ) + (x - g.width) = y * g.width + x := by ring
  constructor
  · unfold Heightfield.getHeight
    simp only [hidx]
  · unfold Heightfield.setHeight
    simp only [hidx]

/-- C4 counterexample: on a 2x2 grid with buffer `[10, 11, 12, 13]`,
`getHeight(2, 0)` (x out of range) silently returns texel `(0, 1)`'s value
`12` instead of raising; `setHeight(2, 0, 99)` silently overwrites texel
`(0, 1)`; and `getHeight(0, 5)`, whose flat index leaves the buffer, returns
JS `undefined` (`none`), again not an error. -/
theorem heightfield_oob_silent :
    Heightfield.getHeight { width := 2, height := 2, data := [10, 11, 12, 13] } 2 0 =
      some 12 ∧
    (Heightfield.setHeight { width := 2, height := 2, data := [10, 11, 12, 13] } 2 0
      99).data = [10, 11, 99, 13] ∧
    Heightfield.getHeight { width := 2, height := 2, data := [10, 11, 12, 13] } 0 5 =
      none := by
  refine ⟨?_, ?_, ?_⟩
  · norm_num [Heightfield.getHeight]
    rfl
  · norm_num [Heightfield.setHeight]
    rfl
  · norm_num [Heightfield.getHeight]

/-! ### Placement: structure of the candidate loop and the texel step -/

/-- Unfolding one iteration of the candidate loop. -/
theorem snocFold_succ (f : List GrassInstance → ℕ → GrassInstance)
    (s : List GrassInstance) (n : ℕ) :
    snocFold f s (n + 1) = snocFold f s n ++ [f (snocFold f s n) n] := by
  unfold snocFold
  rw [List.range_succ, List.foldl_append]
  rfl

/-- The candidate loop appends exactly `n` instances. -/
theorem snocFold_length (f : List GrassInstance → ℕ → GrassInstance)
    (s : List GrassInstance) (n : ℕ) :
    (snocFold f s n).length = s.length + n := by
  induction n with
  | zero => rfl
  | succ m ih => rw [snocFold_succ, List.length_append, ih]; rfl

/-- The candidate loop only appends: the previous buffer is a prefix. -/
theorem snocFold_append (f : List GrassInstance → ℕ → GrassInstance)
    (s : List GrassInstance) (n : ℕ) :
    ∃ t, snocFold f s n = s ++ t := by
  induction n with
  | zero => exact ⟨[], (List.append_nil s).symm⟩
  | succ m ih =>
    obtain ⟨t, ht⟩ := ih
    exact ⟨t ++ [f (snocFold f s m) m], by rw [snocFold_succ, ht, List.append_assoc]⟩

/-- Every element of the candidate loop's result is an old element or an
output of the loop body. -/
theorem snocFold_mem (f : List GrassInstance → ℕ → GrassInstance)
    (s : List GrassInstance) (n : ℕ) :
    ∀ inst ∈ snocFold f s n, inst ∈ s ∨ ∃ acc i, inst = f acc i := by
  induction n with
  | zero => intro inst h; exact Or.inl h
  | succ m ih =>
    intro inst h
    rw [snocFold_succ] at h
    rcases List.mem_append.mp h with h1 | h2
    · exact ih inst h1
    · exact Or.inr ⟨snocFold f s m, m, List.mem_singleton.mp h2⟩

/-- The texel step only appends to the instance buffer. -/
theorem placeTexel_append (M : MathModel) (g : Heightfield) (d : GrassDensityMap)
    (heightScale : ℚ) (maxInstances : ℤ) (scaleFactor : ℚ) (rng : ℕ → ℚ)
    (s : List GrassInstance) (xy : ℕ × ℕ) :
    ∃ t, placeTexel M g d heightScale maxInstances scaleFactor rng s xy = s ++ t := by
  simp only [placeTexel]
  repeat' split
  all_goals
    first
      | exact ⟨[], (List.append_nil s).symm⟩
      | exact snocFold_append _ s _

/-- The texel step respects the capacity: the candidate count is clamped to
`maxInstances - instanceIndex` before the candidate loop runs. -/
theorem placeTexel_length_le (M : MathModel) (g : Heightfield) (d : GrassDensityMap)
    (heightScale : ℚ) (maxInstances : ℤ) (scaleFactor : ℚ) (rng : ℕ → ℚ)
    (s : List GrassInstance) (xy : ℕ × ℕ)
    (hmi : (s.length : ℤ) ≤ maxInstances) :
    (((placeTexel M g d heightScale maxInstances scaleFactor rng s xy).length : ℤ)) ≤
      maxInstances := by
  simp only [placeTexel]
  have hcnt := texelCount_le maxInstances scaleFactor (pseudoRandom M xy.1 xy.2 0.37)
    (d.data.getD (xy.2 * d.width + xy.1) 0) s.length
  repeat' split
  all_goals
    first
      | exact hmi
      | (rw [snocFold_length]; push_cast; omega)

/-- With a zero capacity the texel step places nothing. -/
theorem placeTexel_zero (M : MathModel) (g : Heightfield) (d : GrassDensityMap)
    (heightScale : ℚ) (scaleFactor : ℚ) (rng : ℕ → ℚ) (xy : ℕ × ℕ) :
    placeTexel M g d heightScale 0 scaleFactor rng [] xy = [] := by
  simp only [placeTexel, List.length_nil]
  have hcnt := texelCount_le 0 scaleFactor (pseudoRandom M xy.1 xy.2 0.37)
    (d.data.getD (xy.2 * d.width + xy.1) 0) 0
  simp only [Nat.cast_zero, sub_zero] at hcnt
  repeat' split
  all_goals
    first
      | rfl
      | omega

/-- In-cell containment of an instance: its jittered source UV lies inside
the UV cell `[x/W, (x+1)/W] x [y/H, (y+1)/H]` of its owning density texel. -/
def inCell (d : GrassDensityMap) (inst : GrassInstance) : Prop :=
  (inst.texelX : ℚ) / d.width ≤ inst.sampleU ∧
  inst.sampleU ≤ ((inst.texelX : ℚ) + 1) / d.width ∧
  (inst.texelY : ℚ) / d.height ≤ inst.sampleV ∧
  inst.sampleV ≤ ((inst.texelY : ℚ) + 1) / d.height

/-- Core containment computation: a half-cell jitter driven by a `[0, 1)`
random value keeps the clamped UV inside the owning cell. -/
theorem jitter_in_cell (w t : ℕ) (htw : t < w) (r : ℚ) (hr0 : 0 ≤ r) (hr1 : r < 1) :
    (t : ℚ) / w ≤ clampQ (((t : ℚ) + 0.5) / w + (r - 0.5) * (1 / w)) 0 1 ∧
    clampQ (((t : ℚ) + 0.5) / w + (r - 0.5) * (1 / w)) 0 1 ≤ ((t : ℚ) + 1) / w := by
  have hwq : (0 : ℚ) < w := by
    exact_mod_cast lt_of_le_of_lt (Nat.zero_le t) htw
  have hv : ((t : ℚ) + 0.5) / w + (r - 0.5) * (1 / w) = ((t : ℚ) + r) / w := by
    field_simp
    try ring
  have hlow : (t : ℚ) / w ≤ ((t : ℚ) + r) / w := by gcongr <;> linarith
  have hupp : ((t : ℚ) + r) / w ≤ ((t : ℚ) + 1) / w := by gcongr <;> linarith
  have h0 : (0 : ℚ) ≤ ((t : ℚ) + r) / w :=
    div_nonneg (add_nonneg (Nat.cast_nonneg t) hr0) (le_of_lt hwq)
  have h1 : ((t : ℚ) + r) / w ≤ 1 := by
    rw [div_le_one hwq]
    have hcast : (t : ℚ) + 1 ≤ w := by exact_mod_cast htw
    linarith
  rw [hv, clampQ_eq_self h0 h1]
  exact ⟨hlow, hupp⟩

/-- The instance built for texel `(x, y)` has its jittered UV inside the
texel's UV cell. -/
theorem placeInstance_inCell (M : MathModel) (g : Heightfield) (d : GrassDensityMap)
    (heightScale : ℚ) (rng : ℕ → ℚ) (x y slot i : ℕ) (baseRand ww wh : ℚ)
    (hx : x < d.width) (hy : y < d.height) :
    inCell d (placeInstance M g heightScale rng x y
      (if 0 < d.width then 1 / (d.width : ℚ) else 1)
      (if 0 < d.height then 1 / (d.height : ℚ) else 1)
      (if 0 < d.width then ((x : ℚ) + 0.5) / (d.width : ℚ) else 0.5)
      (if 0 < d.height then ((y : ℚ) + 0.5) / (d.height : ℚ) else 0.5)
      baseRand ww wh slot i) := by
  have hw : 0 < d.width := lt_of_le_of_lt (Nat.zero_le x) hx
  have hh : 0 < d.height := lt_of_le_of_lt (Nat.zero_le y) hy
  have hU := jitter_in_cell d.width x hx (pseudoRandom M x y ((i : ℚ) * 2.11))
    (pseudoRandom_nonneg M x y _) (pseudoRandom_lt_one M x y _)
  have hV := jitter_in_cell d.height y hy (pseudoRandom M x y ((i : ℚ) * 3.73 + 1))
    (pseudoRandom_nonneg M x y _) (pseudoRandom_lt_one M x y _)
  unfold placeInstance inCell
  dsimp only
  simp only [if_pos hw, if_pos hh]
  exact ⟨hU.1, hU.2, hV.1, hV.2⟩

/-- Every instance present after a texel step was already present or is an
in-cell instance of that texel. -/
theorem placeTexel_mem (M : MathModel) (g : Heightfield) (d : GrassDensityMap)
    (heightScale : ℚ) (maxInstances : ℤ) (scaleFactor : ℚ) (rng : ℕ → ℚ)
    (s : List GrassInstance) (xy : ℕ × ℕ) (hx : xy.1 < d.width)
    (hy : xy.2 < d.height) :
    ∀ inst ∈ placeTexel M g d heightScale maxInstances scaleFactor rng s xy,
      inst ∈ s ∨ inCell d inst := by
  intro inst hmem
  simp only [placeTexel] at hmem
  by_cases h1 : d.data.getD (xy.2 * d.width + xy.1) 0 ≤ 0
  · rw [if_pos h1] at hmem
    exact Or.inl hmem
  · rw [if_neg h1] at hmem
    split at hmem
    · exact Or.inl hmem
    · rcases snocFold_mem _ s _ inst hmem with h | ⟨acc, i, rfl⟩
      · exact Or.inl h
      · exact Or.inr (placeInstance_inCell M g d heightScale rng
          xy.1 xy.2 acc.length i _ _ _ hx hy)

/-- Every texel of a patch block lies inside the density grid. -/
theorem blockCells_mem {d : GrassDensityMap} {tpx tpy px py : ℕ} {xy : ℕ × ℕ}
    (h : xy ∈ blockCells d tpx tpy px py) : xy.1 < d.width ∧ xy.2 < d.height := by
  unfold blockCells at h
  obtain ⟨y, hy, hc⟩ := List.mem_flatMap.mp h
  obtain ⟨x, hx, rfl⟩ := List.mem_map.mp hc
  rw [List.mem_range'_1] at hx hy
  constructor
  · omega
  · omega

/-! ### Patch list consistency -/

/-- `chainFrom s ps n`: the patch list `ps` covers the instance index range
`[s, n)` with consecutive, gap-free, non-empty blocks: each patch starts
where the previous one ended, the first at `s`, the last ending at `n`. -/
def chainFrom : ℕ → List GrassPatch → ℕ → Prop
  | s, [], n => s = n
  | s, p :: ps, n =>
    p.startInstance = s ∧ 0 < p.instanceCount ∧
      chainFrom (s + p.instanceCount) ps n

/-- Appending a non-empty patch that starts exactly at the previous end
extends a chain. -/
theorem chainFrom_snoc (p : GrassPatch) :
    ∀ (ps : List GrassPatch) (s m : ℕ), chainFrom s ps m → p.startInstance = m →
      0 < p.instanceCount → chainFrom s (ps ++ [p]) (m + p.instanceCount) := by
  intro ps
  induction ps with
  | nil =>
    intro s m hch hs hc
    simp only [chainFrom] at hch
    subst hch
    exact ⟨hs, hc, rfl⟩
  | cons q qs ih =>
    intro s m hch hs hc
    obtain ⟨hq, hqc, hrest⟩ := hch
    exact ⟨hq, hqc, ih _ _ hrest hs hc⟩

/-- A chain from `s` to `n` sums its patch counts to `n - s`. -/
theorem chainFrom_sum :
    ∀ (ps : List GrassPatch) (s n : ℕ), chainFrom s ps n →
      s + (ps.map (fun p => p.instanceCount)).sum = n := by
  intro ps
  induction ps with
  | nil =>
    intro s n hch
    simpa [chainFrom] using hch
  | cons q qs ih =>
    intro s n hch
    obtain ⟨_, _, hrest⟩ := hch
    have := ih _ _ hrest
    simp only [List.map_cons, List.sum_cons]
    omega

/-- Every patch of a chain is non-empty. -/
theorem chainFrom_pos :
    ∀ (ps : List GrassPatch) (s n : ℕ), chainFrom s ps n →
      ∀ p ∈ ps, 0 < p.instanceCount := by
  intro ps
  induction ps with
  | nil => intro s n _ p hp; exact absurd hp (List.not_mem_nil p)
  | cons q qs ih =>
    intro s n hch p hp
    obtain ⟨_, hqc, hrest⟩ := hch
    rcases List.mem_cons.mp hp with rfl | hp'
    · exact hqc
    · exact ih _ _ hrest p hp'

/-- Convenience form of `chainFrom_snoc` where the new end index is given
directly. -/
theorem chainFrom_snoc2 (ps : List GrassPatch) (m n : ℕ) (p : GrassPatch)
    (hch : chainFrom 0 ps m) (hs : p.startInstance = m)
    (hc : p.instanceCount = n - m) (hmn : m ≤ n) (hlt : m < n) :
    chainFrom 0 (ps ++ [p]) n := by
  have hcpos : 0 < p.instanceCount := by omega
  have hstep := chainFrom_snoc p ps 0 m hch hs hcpos
  have heq : m + p.instanceCount = n := by omega
  rw [heq] at hstep
  exact hstep

/-- A texel fold only grows the instance buffer. -/
theorem texelFold_mono (M : MathModel) (g : Heightfield) (d : GrassDensityMap)
    (heightScale : ℚ) (maxInstances : ℤ) (scaleFactor : ℚ) (rng : ℕ → ℚ)
    (cells : List (ℕ × ℕ)) (s : List GrassInstance) :
    s.length ≤
      (cells.foldl (placeTexel M g d heightScale maxInstances scaleFactor rng) s).length := by
  have h := foldl_inv (placeTexel M g d heightScale maxInstances scaleFactor rng)
    (fun b => s.length ≤ b.length) ?_ cells s (le_refl _)
  · exact h
  · intro b xy hb
    obtain ⟨t, ht⟩ := placeTexel_append M g d heightScale maxInstances scaleFactor rng b xy
    rw [ht, List.length_append]
    omega

/-- The instance buffer of a patch block is the texel fold of the block's
cells; the patch list is unchanged or extended by one patch covering exactly
the instances the block placed. -/
theorem placeBlock_instances (M : MathModel) (g : Heightfield) (d : GrassDensityMap)
    (heightScale : ℚ) (maxInstances : ℤ) (scaleFactor : ℚ) (rng : ℕ → ℚ)
    (tpx tpy : ℕ) (s : PlaceState) (px py : ℕ) :
    (placeBlock M g d heightScale maxInstances scaleFactor rng tpx tpy s px py).instances =
      (blockCells d tpx tpy px py).foldl
        (placeTexel M g d heightScale maxInstances scaleFactor rng) s.instances := by
  simp only [placeBlock]
  split
  · rfl
  · rfl

/-- A patch block preserves the chain invariant tying the patch list to the
length of the instance buffer. -/
theorem placeBlock_chain (M : MathModel) (g : Heightfield) (d : GrassDensityMap)
    (heightScale : ℚ) (maxInstances : ℤ) (scaleFactor : ℚ) (rng : ℕ → ℚ)
    (tpx tpy : ℕ) (s : PlaceState) (px py : ℕ)
    (hch : chainFrom 0 s.patches s.instances.length) :
    chainFrom 0
      (placeBlock M g d heightScale maxInstances scaleFactor rng tpx tpy s px py).patches
      (placeBlock M g d heightScale maxInstances scaleFactor rng tpx tpy s px py).instances.length := by
  have hmono := texelFold_mono M g d heightScale maxInstances scaleFactor rng
    (blockCells d tpx tpy px py) s.instances
  simp only [placeBlock]
  split
  · rename_i hcond
    simp only [List.length_drop] at hcond
    dsimp only
    refine chainFrom_snoc2 s.patches s.instances.length _ _ hch rfl rfl hmono ?_
    omega
  · rename_i hcond
    simp only [List.length_drop, not_and_or, Nat.not_lt, Nat.le_zero] at hcond
    have hz : ((blockCells d tpx tpy px py).foldl
        (placeTexel M g d heightScale maxInstances scaleFactor rng)
        s.instances).length = s.instances.length := by omega
    rw [hz]
    exact hch

/-- Fold invariance where the step property may use membership of the element
in the traversed list. -/
theorem foldl_inv_mem {α β : Type} (f : β → α → β) (P : β → Prop) :
    ∀ (l : List α), (∀ b a, a ∈ l → P b → P (f b a)) →
      ∀ b, P b → P (l.foldl f b) := by
  intro l
  induction l with
  | nil => intro _ b hb; exact hb
  | cons a t ih =>
    intro h b hb
    exact ih (fun b2 a2 ha2 hb2 => h b2 a2 (List.mem_cons_of_mem a ha2) hb2)
      (f b a) (h b a (List.mem_cons_self a t) hb)

/-- A patch block keeps the instance buffer within the capacity. -/
theorem placeBlock_length_le (M : MathModel) (g : Heightfield) (d : GrassDensityMap)
    (heightScale : ℚ) (maxInstances : ℤ) (scaleFactor : ℚ) (rng : ℕ → ℚ)
    (tpx tpy : ℕ) (s : PlaceState) (px py : ℕ)
    (hb : (s.instances.length : ℤ) ≤ maxInstances) :
    (((placeBlock M g d heightScale maxInstances scaleFactor rng tpx tpy s px py).instances.length : ℤ)) ≤
      maxInstances := by
  rw [placeBlock_instances]
  exact foldl_inv (placeTexel M g d heightScale maxInstances scaleFactor rng)
    (fun b => (b.length : ℤ) ≤ maxInstances)
    (fun b xy hb2 => placeTexel_length_le M g d heightScale maxInstances scaleFactor
      rng b xy hb2)
    (blockCells d tpx tpy px py) s.instances hb

/-- A patch block keeps every instance inside its owning texel's UV cell. -/
theorem placeBlock_inCell (M : MathModel) (g : Heightfield) (d : GrassDensityMap)
    (heightScale : ℚ) (maxInstances : ℤ) (scaleFactor : ℚ) (rng : ℕ → ℚ)
    (tpx tpy : ℕ) (s : PlaceState) (px py : ℕ)
    (hb : ∀ inst ∈ s.instances, inCell d inst) :
    ∀ inst ∈ (placeBlock M g d heightScale maxInstances scaleFactor rng tpx tpy s px py).instances,
      inCell d inst := by
  rw [placeBlock_instances]
  refine foldl_inv_mem (placeTexel M g d heightScale maxInstances scaleFactor rng)
    (fun b => ∀ inst ∈ b, inCell d inst) (blockCells d tpx tpy px py) ?_
    s.instances hb
  intro b xy hxy hb2 inst hmem
  obtain ⟨hxw, hyh⟩ := blockCells_mem hxy
  rcases placeTexel_mem M g d heightScale maxInstances scaleFactor rng b xy hxw hyh
    inst hmem with h | h
  · exact hb2 inst h
  · exact h

/-- With a zero capacity a patch block changes nothing: no instance is
placed and no patch is pushed. -/
theorem placeBlock_zero (M : MathModel) (g : Heightfield) (d : GrassDensityMap)
    (heightScale : ℚ) (scaleFactor : ℚ) (rng : ℕ → ℚ) (tpx tpy : ℕ)
    (s : PlaceState) (px py : ℕ) (hi : s.instances = []) :
    (placeBlock M g d heightScale 0 scaleFactor rng tpx tpy s px py).instances = [] ∧
    (placeBlock M g d heightScale 0 scaleFactor rng tpx tpy s px py).patches = s.patches := by
  have hfold : (blockCells d tpx tpy px py).foldl
      (placeTexel M g d heightScale 0 scaleFactor rng) s.instances = [] := by
    rw [hi]
    exact foldl_inv (placeTexel M g d heightScale 0 scaleFactor rng)
      (fun b => b = [])
      (fun b xy hb => by rw [hb]; exact placeTexel_zero M g d heightScale scaleFactor rng xy)
      (blockCells d tpx tpy px py) [] rfl
  simp only [placeBlock]
  split
  · rename_i hcond
    rw [List.length_drop, hfold, hi] at hcond
    simp at hcond
  · exact ⟨hfold, rfl⟩

/-- The result fields of `placeCore` are projections of the final placement
state. -/
theorem placeCore_instances (M : MathModel) (g : Heightfield) (d : GrassDensityMap)
    (heightScale : ℚ) (maxInstances : ℤ) (rng : ℕ → ℚ) :
    (placeCore M g d heightScale maxInstances rng).instances =
      (placeFinal M g d heightScale maxInstances rng).instances := by
  unfold placeCore
  dsimp only

/-- The result fields of `placeCore` are projections of the final placement
state. -/
theorem placeCore_count (M : MathModel) (g : Heightfield) (d : GrassDensityMap)
    (heightScale : ℚ) (maxInstances : ℤ) (rng : ℕ → ℚ) :
    (placeCore M g d heightScale maxInstances rng).count =
      (placeFinal M g d heightScale maxInstances rng).instances.length := by
  unfold placeCore
  dsimp only

/-- The result fields of `placeCore` are projections of the final placement
state. -/
theorem placeCore_patches (M : MathModel) (g : Heightfield) (d : GrassDensityMap)
    (heightScale : ℚ) (maxInstances : ℤ) (rng : ℕ → ℚ) :
    (placeCore M g d heightScale maxInstances rng).patches =
      (placeFinal M g d heightScale maxInstances rng).patches := by
  unfold placeCore
  dsimp only

/-- Any property of the placement state preserved by every patch block holds
for the final state of `placeCore`, whose result fields are that state's. -/
theorem placeCore_state (M : MathModel) (g : Heightfield) (d : GrassDensityMap)
    (heightScale : ℚ) (maxInstances : ℤ) (rng : ℕ → ℚ) (P : PlaceState → Prop)
    (hstep : ∀ (scaleFactor : ℚ) (tpx tpy : ℕ) (s : PlaceState) (px py : ℕ),
      P s → P (placeBlock M g d heightScale maxInstances scaleFactor rng tpx tpy s px py))
    (hinit : P { instances := [], patches := [] }) :
    ∃ st : PlaceState, P st ∧
      (placeCore M g d heightScale maxInstances rng).instances = st.instances ∧
      (placeCore M g d heightScale maxInstances rng).count = st.instances.length ∧
      (placeCore M g d heightScale maxInstances rng).patches = st.patches := by
  refine ⟨placeFinal M g d heightScale maxInstances rng, ?_,
    placeCore_instances M g d heightScale maxInstances rng,
    placeCore_count M g d heightScale maxInstances rng,
    placeCore_patches M g d heightScale maxInstances rng⟩
  unfold placeFinal
  dsimp only
  exact foldl_inv _ P
    (fun b py hb => foldl_inv _ P
      (fun b2 px hb2 => hstep _ _ _ b2 px py hb2) (List.range 16) b hb)
    (List.range 16) _ hinit

/-- The reported count is the length of the populated instance prefix. -/
theorem placeCore_count_eq (M : MathModel) (g : Heightfield) (d : GrassDensityMap)
    (heightScale : ℚ) (maxInstances : ℤ) (rng : ℕ → ℚ) :
    (placeCore M g d heightScale maxInstances rng).count =
      (placeCore M g d heightScale maxInstances rng).instances.length := by
  rw [placeCore_count, placeCore_instances]

/-- C2: for every `maxInstances >= 0` and every heightfield and density field,
the placement succeeds and returns `count <= maxInstances`: the candidate
count of every texel is clamped to the remaining capacity, so the running
total never exceeds the ceiling. -/
theorem place_count_le_max (M : MathModel) (g : Heightfield) (d : GrassDensityMap)
    (heightScale : ℚ) (maxInstances : ℤ) (rng : ℕ → ℚ) (hmi : 0 ≤ maxInstances) :
    ∃ r, createGrassInstancedMesh M g d heightScale maxInstances rng = .ok r ∧
      (r.count : ℤ) ≤ maxInstances := by
  refine ⟨placeCore M g d heightScale maxInstances rng, ?_, ?_⟩
  · unfold createGrassInstancedMesh
    rw [if_neg (not_lt.mpr hmi)]
  · obtain ⟨st, hP, _, hcnt, _⟩ := placeCore_state M g d heightScale maxInstances rng
      (fun s => (s.instances.length : ℤ) ≤ maxInstances)
      (fun sf tpx tpy s px py hb =>
        placeBlock_length_le M g d heightScale maxInstances sf rng tpx tpy s px py hb)
      (by simpa using hmi)
    rw [hcnt]
    exact hP

/-- C2 witness: on the 1x1 full-density map over the 2x2 zero heightfield
with `maxInstances = 4` (which is under capacity pressure, the expected total
being 6) the placement succeeds with a count within the ceiling. -/
theorem place_count_le_max_witness :
    ∃ r, createGrassInstancedMesh M0 hf2 d1 1 4 (fun _ => 0) = .ok r ∧
      (r.count : ℤ) ≤ 4 :=
  place_count_le_max M0 hf2 d1 1 4 (fun _ => 0) (by norm_num)

/-- C5 (amended): `maxInstances = 0` yields a successful empty result: zero
count and no patches, with no error.  (A negative `maxInstances` instead
aborts with the typed-array `RangeError`.) -/
theorem place_zero_max_empty (M : MathModel) (g : Heightfield) (d : GrassDensityMap)
    (heightScale : ℚ) (rng : ℕ → ℚ) :
    ∃ r, createGrassInstancedMesh M g d heightScale 0 rng = .ok r ∧
      r.count = 0 ∧ r.patches = [] := by
  refine ⟨placeCore M g d heightScale 0 rng, ?_, ?_, ?_⟩
  · unfold createGrassInstancedMesh
    rw [if_neg (by omega)]
  · obtain ⟨st, hP, _, hcnt, _⟩ := placeCore_state M g d heightScale 0 rng
      (fun s => s.instances = [] ∧ s.patches = [])
      (fun sf tpx tpy s px py hb => by
        obtain ⟨h1, h2⟩ := placeBlock_zero M g d heightScale sf rng tpx tpy s px py hb.1
        exact ⟨h1, h2.trans hb.2⟩)
      ⟨rfl, rfl⟩
    rw [hcnt, hP.1]
    rfl
  · obtain ⟨st, hP, _, _, hpat⟩ := placeCore_state M g d heightScale 0 rng
      (fun s => s.instances = [] ∧ s.patches = [])
      (fun sf tpx tpy s px py hb => by
        obtain ⟨h1, h2⟩ := placeBlock_zero M g d heightScale sf rng tpx tpy s px py hb.1
        exact ⟨h1, h2.trans hb.2⟩)
      ⟨rfl, rfl⟩
    rw [hpat, hP.2]

/-- C5 counterexample: with the concrete `maxInstances = -1` the call throws
(the `new Float32Array(maxInstances)` attribute allocations reject a negative
length with a `RangeError`), so `maxInstances <= 0` does not always return an
empty result without error. -/
theorem place_negative_max_error :
    createGrassInstancedMesh M0 hf2 d1 1 (-1) (fun _ => 0) =
      .error "RangeError: invalid typed array length" := by
  unfold createGrassInstancedMesh
  rw [if_pos (by norm_num)]

/-- C6: for every placement result, the patch list chains the instance buffer
gap-free from 0 to `count` (each patch owns the contiguous range
`[startInstance, startInstance + instanceCount)` and starts where the
previous one ended), the patch counts sum to `count`, and no returned patch
is empty. -/
theorem patch_ranges_consistent (M : MathModel) (g : Heightfield)
    (d : GrassDensityMap) (heightScale : ℚ) (maxInstances : ℤ) (rng : ℕ → ℚ)
    (r : PlaceResult)
    (h : createGrassInstancedMesh M g d heightScale maxInstances rng = .ok r) :
    chainFrom 0 r.patches r.count ∧
    (r.patches.map (fun p => p.instanceCount)).sum = r.count ∧
    ∀ p ∈ r.patches, 0 < p.instanceCount := by
  unfold createGrassInstancedMesh at h
  split at h
  · exact absurd h (by simp)
  · have hr : r = placeCore M g d heightScale maxInstances rng :=
      (Except.ok.inj h).symm
    subst hr
    obtain ⟨st, hP, _, hcnt, hpat⟩ := placeCore_state M g d heightScale maxInstances rng
      (fun s => chainFrom 0 s.patches s.instances.length)
      (fun sf tpx tpy s px py hb =>
        placeBlock_chain M g d heightScale maxInstances sf rng tpx tpy s px py hb)
      rfl
    rw [hcnt, hpat]
    refine ⟨hP, ?_, chainFrom_pos st.patches 0 st.instances.length hP⟩
    have hsum := chainFrom_sum st.patches 0 st.instances.length hP
    omega

/-- C6 witness: the patch consistency at the concrete 1x1 full-density map
over the 2x2 zero heightfield with capacity 10. -/
theorem patch_ranges_consistent_witness :
    chainFrom 0 (placeCore M0 hf2 d1 1 10 (fun _ => 0)).patches
      (placeCore M0 hf2 d1 1 10 (fun _ => 0)).count ∧
    ((placeCore M0 hf2 d1 1 10 (fun _ => 0)).patches.map
      (fun p => p.instanceCount)).sum = (placeCore M0 hf2 d1 1 10 (fun _ => 0)).count ∧
    ∀ p ∈ (placeCore M0 hf2 d1 1 10 (fun _ => 0)).patches, 0 < p.instanceCount :=
  patch_ranges_consistent M0 hf2 d1 1 10 (fun _ => 0) _
    (by unfold createGrassInstancedMesh; rw [if_neg (by norm_num)])

/-- C10: every instance of a placement result has its jittered source UV —
used both for its world position and its height sample — inside the UV cell
of its owning density texel. -/
theorem instance_uv_in_cell (M : MathModel) (g : Heightfield)
    (d : GrassDensityMap) (heightScale : ℚ) (maxInstances : ℤ) (rng : ℕ → ℚ)
    (r : PlaceResult)
    (h : createGrassInstancedMesh M g d heightScale maxInstances rng = .ok r) :
    ∀ inst ∈ r.instances, inCell d inst := by
  unfold createGrassInstancedMesh at h
  split at h
  · exact absurd h (by simp)
  · have hr : r = placeCore M g d heightScale maxInstances rng :=
      (Except.ok.inj h).symm
    subst hr
    obtain ⟨st, hP, hinst, _, _⟩ := placeCore_state M g d heightScale maxInstances rng
      (fun s => ∀ inst ∈ s.instances, inCell d inst)
      (fun sf tpx tpy s px py hb =>
        placeBlock_inCell M g d heightScale maxInstances sf rng tpx tpy s px py hb)
      (fun inst h2 => absurd h2 (List.not_mem_nil inst))
    rw [hinst]
    exact hP

/-- A placeholder instance used as the default of a list read. -/
def dummyInstance : GrassInstance :=
  { texelX := 0, texelY := 0, sampleU := 0, sampleV := 0, worldX := 0, posY := 0,
    worldZ := 0, yaw := 0, tiltX := 0, tiltZ := 0, scaleX := 0, scaleY := 0,
    phase := 0, stiffness := 0, colorFactor := 0, heightFactor := 0 }

set_option maxHeartbeats 2000000 in
/-- The concrete run used by witnesses places exactly 6 instances. -/
theorem placeCore_concrete_count :
    (placeCore M0 hf2 d1 1 10 (fun _ => 0)).count = 6 := by
  norm_num [placeCore, placeFinal, placeBlock, placeTexel, texelCount, placeInstance,
    snocFold, totalExpected, blockCells, List.range_succ, pseudoRandom, fractQ, M0,
    hf2, d1, clampQ, sampleHeight, Heightfield.at, Heightfield.getHeight, List.range',
    List.flatMap]
  norm_num [show Int.toNat 6 = 6 from rfl, List.range_succ]

/-- C10 witness: in-cell containment of the first instance of the concrete
run. -/
theorem instance_uv_in_cell_witness :
    inCell d1 ((placeCore M0 hf2 d1 1 10 (fun _ => 0)).instances.getD 0 dummyInstance) := by
  have hlen : (placeCore M0 hf2 d1 1 10 (fun _ => 0)).instances.length = 6 := by
    rw [← placeCore_count_eq]
    exact placeCore_concrete_count
  have hpos : 0 < (placeCore M0 hf2 d1 1 10 (fun _ => 0)).instances.length := by omega
  have hmem : (placeCore M0 hf2 d1 1 10 (fun _ => 0)).instances.getD 0 dummyInstance ∈
      (placeCore M0 hf2 d1 1 10 (fun _ => 0)).instances := by
    rw [List.getD_eq_getElem?_getD, List.getElem?_eq_getElem hpos]
    exact List.getElem_mem hpos
  exact instance_uv_in_cell M0 hf2 d1 1 10 (fun _ => 0) _
    (by unfold createGrassInstancedMesh; rw [if_neg (by norm_num)]) _ hmem

set_option maxHeartbeats 2000000 in
/-- Two runs of the placement on identical inputs whose `Math.random()`
streams differ produce different stiffness buffers. -/
theorem placeCore_stiffness_ne :
    (placeCore M0 hf2 d1 1 10 (fun _ => 0)).instances.map (fun i => i.stiffness) ≠
    (placeCore M0 hf2 d1 1 10 (fun _ => 1/2)).instances.map (fun i => i.stiffness) := by
  norm_num [placeCore, placeFinal, placeBlock, placeTexel, texelCount, placeInstance,
    snocFold, totalExpected, blockCells, List.range_succ, pseudoRandom, fractQ, M0,
    hf2, d1, clampQ, sampleHeight, Heightfield.at, Heightfield.getHeight, List.range',
    List.flatMap]
  norm_num [show Int.toNat 6 = 6 from rfl, List.range_succ]

/-- C1: the placement is not a function of its inputs alone — the
per-instance stiffness shading scalar is drawn from the global RNG
(`stiffnessArray[instanceIndex] = Math.random()`, `grass.ts`), so two calls
with identical heightfield, density field and options can return different
results when the hidden RNG stream differs. -/
theorem grass_stiffness_hidden_randomness :
    createGrassInstancedMesh M0 hf2 d1 1 10 (fun _ => 0) ≠
    createGrassInstancedMesh M0 hf2 d1 1 10 (fun _ => 1/2) := by
  intro h
  have e1 : createGrassInstancedMesh M0 hf2 d1 1 10 (fun _ => 0) =
      .ok (placeCore M0 hf2 d1 1 10 (fun _ => 0)) := by
    unfold createGrassInstancedMesh
    rw [if_neg (by norm_num)]
  have e2 : createGrassInstancedMesh M0 hf2 d1 1 10 (fun _ => 1/2) =
      .ok (placeCore M0 hf2 d1 1 10 (fun _ => 1/2)) := by
    unfold createGrassInstancedMesh
    rw [if_neg (by norm_num)]
  rw [e1, e2] at h
  exact placeCore_stiffness_ne
    (congrArg (fun r => r.instances.map (fun i => i.stiffness)) (Except.ok.inj h))
